import Mathlib

/-!
Shallow embedding of the traffic-intersection controller in `src/app.py`:
the mutable `state` dict, the `set_counts` / `preset` / `config` / `control`
endpoints and the `tick` simulation step.  Timestamps and durations (Python
floats) are modelled as rationals; vehicle counts (Python ints) as integers.
The rolling text log is presentation-layer and is not part of the model.
-/

namespace Traffic

/-- Direction labels, `dir_order = ['N', 'E', 'S', 'W']` in the source. -/
inductive Dir
  | N
  | E
  | S
  | W
deriving DecidableEq, Repr

/-- `state["mode"]`: `"vehicle"` or `"standard"`. -/
inductive Mode
  | vehicle
  | standard
deriving DecidableEq, Repr

/-- `state["phase"]`: `"idle"`, `"green"` or `"yellow"`. -/
inductive Phase
  | idle
  | green
  | yellow
deriving DecidableEq, Repr

/-- A per-direction integer map such as `state["counts"]` / `state["waiting"]`,
with the dict insertion order N, E, S, W. -/
structure Quad where
  n : Int
  e : Int
  s : Int
  w : Int
deriving DecidableEq, Repr

def Quad.get (q : Quad) : Dir → Int
  | Dir.N => q.n
  | Dir.E => q.e
  | Dir.S => q.s
  | Dir.W => q.w

def Quad.set (q : Quad) : Dir → Int → Quad
  | Dir.N, v => { q with n := v }
  | Dir.E, v => { q with e := v }
  | Dir.S, v => { q with s := v }
  | Dir.W, v => { q with w := v }

/-- The global `state` dict of `app.py` (minus `logs`, which is the external
log sink). -/
structure St where
  mode : Mode
  counts : Quad
  waiting : Quad
  served : Int
  currentLane : Option Dir
  phase : Phase
  greenTime : Rat
  yellowTime : Rat
  releaseInterval : Rat
  greenElapsed : Rat
  yellowElapsed : Rat
  lastRelease : Rat
  lastTick : Rat
  vehicleMoving : Int
  running : Bool
  lastLane : Option Dir
deriving DecidableEq, Repr

/-- The initial `state` literal of `app.py` (lines 9-27). -/
def initState : St where
  mode := Mode.vehicle
  counts := ⟨0, 0, 0, 0⟩
  waiting := ⟨0, 0, 0, 0⟩
  served := 0
  currentLane := none
  phase := Phase.idle
  greenTime := 20
  yellowTime := 3
  releaseInterval := 0.6
  greenElapsed := 0
  yellowElapsed := 0
  lastRelease := 0
  lastTick := 0
  vehicleMoving := 0
  running := false
  lastLane := none

/-- `dir_order = ['N', 'E', 'S', 'W']`. -/
def dirOrder : List Dir := [Dir.N, Dir.E, Dir.S, Dir.W]

/-- `dir_order.index(d)`. -/
def dirIndex : Dir → Nat
  | Dir.N => 0
  | Dir.E => 1
  | Dir.S => 2
  | Dir.W => 3

/-- The direction label string used as dict key and in tuple comparisons. -/
def dirLabel : Dir → String
  | Dir.N => "N"
  | Dir.E => "E"
  | Dir.S => "S"
  | Dir.W => "W"

/-- Per-direction payload of a `POST /api/set_counts` request: `none` models a
missing key or a value failing the `isinstance(val, int)` check. -/
structure CountsInput where
  n : Option Int
  e : Option Int
  s : Option Int
  w : Option Int
deriving DecidableEq, Repr

def CountsInput.get (c : CountsInput) : Dir → Option Int
  | Dir.N => c.n
  | Dir.E => c.e
  | Dir.S => c.s
  | Dir.W => c.w

/-- One iteration of the `set_counts` loop (app.py lines 59-64): a provided
integer value is accepted only when non-negative; `waiting` is additionally
updated only when the simulation is not running. -/
def setCountsDir (s : St) (d : Dir) (val : Option Int) : St :=
  match val with
  | none => s
  | some v =>
      if 0 ≤ v then
        let s1 := { s with counts := s.counts.set d v }
        if s1.running = false then { s1 with waiting := s1.waiting.set d v } else s1
      else s

/-- `set_counts` endpoint (app.py lines 57-65): the loop over N, E, S, W. -/
def setCounts (s : St) (inp : CountsInput) : St :=
  dirOrder.foldl (fun t d => setCountsDir t d (inp.get d)) s

/-- `preset` endpoint (app.py lines 67-75): `counts[d] = max(0, inp[i])`,
unconditionally; `waiting[d]` follows only when not running. -/
def presetDir (s : St) (d : Dir) (v : Int) : St :=
  let s1 := { s with counts := s.counts.set d (max 0 v) }
  if s1.running = false then
    { s1 with waiting := s1.waiting.set d (s1.counts.get d) }
  else s1

def preset (s : St) (vN vE vS vW : Int) : St :=
  presetDir (presetDir (presetDir (presetDir s Dir.N vN) Dir.E vE) Dir.S vS) Dir.W vW

/-- `config` endpoint (app.py lines 77-83): for each of `yellow_time`,
`release_interval`, `green_time`, a provided value is stored as `float(val)`
with no further validation. -/
def setConfig (s : St) (yellowVal releaseVal greenVal : Option Rat) : St :=
  let s1 := match yellowVal with
    | some v => { s with yellowTime := v }
    | none => s
  let s2 := match releaseVal with
    | some v => { s1 with releaseInterval := v }
    | none => s1
  match greenVal with
  | some v => { s2 with greenTime := v }
  | none => s2

/-- `control` action `"start"` (app.py lines 88-97). -/
def startAct (s : St) : St :=
  { s with
    waiting := s.counts
    served := 0
    vehicleMoving := 0
    phase := Phase.idle
    currentLane := none
    running := true
    lastLane := none }

/-- `control` action `"pause"` (app.py lines 98-100). -/
def pauseAct (s : St) : St :=
  { s with running := false }

/-- `control` action `"reset"` (app.py lines 101-110). -/
def resetAct (s : St) : St :=
  { s with
    counts := ⟨0, 0, 0, 0⟩
    waiting := ⟨0, 0, 0, 0⟩
    served := 0
    running := false
    phase := Phase.idle
    currentLane := none
    vehicleMoving := 0
    lastLane := none }

/-- Python tuple comparison `(v1, d1) < (v2, d2)` on the `(value, label)`
pairs built by the vehicle-actuated lane picker. -/
def pairLt (a b : Int × Dir) : Prop :=
  a.1 < b.1 ∨ (a.1 = b.1 ∧ dirLabel a.2 < dirLabel b.2)

instance : DecidableRel pairLt := fun a b => by
  unfold pairLt; infer_instance

/-- The comparison under which `sorted(..., reverse=True)` orders the list:
descending, i.e. each element is not tuple-less-than its successor. -/
def pairGe (a b : Int × Dir) : Prop := ¬ pairLt a b

instance : DecidableRel pairGe := fun a b => by
  unfold pairGe; infer_instance

/-- The list comprehension `[(v, d) for d, v in state["waiting"].items()]`,
in dict insertion order N, E, S, W. -/
def waitingPairs (q : Quad) : List (Int × Dir) :=
  [(q.n, Dir.N), (q.e, Dir.E), (q.s, Dir.S), (q.w, Dir.W)]

/-- `options = sorted([(v, d) ...], reverse=True)` (app.py line 168). -/
def options (q : Quad) : List (Int × Dir) :=
  List.insertionSort pairGe (waitingPairs q)

/-- The vehicle-actuated lane pick (app.py lines 168-178): the head of the
descending-sorted list, if its waiting value is positive. -/
def pickVehicleLane (q : Quad) : Option Dir :=
  match options q with
  | [] => none
  | (v, d) :: _ => if 0 < v then some d else none

/-- Vehicle release block (app.py lines 124-131). -/
def releaseStep (s : St) (now : Rat) (lane : Dir) : St :=
  if 0 < s.waiting.get lane ∧ s.releaseInterval ≤ now - s.lastRelease then
    { s with
      waiting := s.waiting.set lane (s.waiting.get lane - 1)
      served := s.served + 1
      vehicleMoving := s.vehicleMoving + 1
      lastRelease := now }
  else s

/-- Green-phase timing block (app.py lines 132-143). -/
def greenTimer (s : St) (dt : Rat) (lane : Dir) : St :=
  if s.mode = Mode.vehicle then
    if s.waiting.get lane = 0 then
      { s with phase := Phase.yellow, yellowElapsed := 0 }
    else s
  else
    let s1 := { s with greenElapsed := s.greenElapsed + dt }
    if s1.greenTime < s1.greenElapsed then
      { s1 with phase := Phase.yellow, yellowElapsed := 0 }
    else s1

/-- The `if state["phase"] == "green" and state["current_lane"]:` block
(app.py lines 122-143). -/
def greenStep (s : St) (now dt : Rat) : St :=
  if s.phase = Phase.green then
    match s.currentLane with
    | some lane => greenTimer (releaseStep s now lane) dt lane
    | none => s
  else s

/-- The `if state["phase"] == "yellow":` block (app.py lines 146-150). -/
def yellowStep (s : St) (dt : Rat) : St :=
  if s.phase = Phase.yellow then
    let s1 := { s with yellowElapsed := s.yellowElapsed + dt }
    if s1.yellowTime ≤ s1.yellowElapsed then
      { s1 with phase := Phase.idle, currentLane := none }
    else s1
  else s

/-- The fixed-cycle next lane, `dir_order[(ci + 1) % 4]` (app.py lines 158-159). -/
def nextFixed (l : Dir) : Dir :=
  dirOrder.getD ((dirIndex l + 1) % 4) Dir.N

/-- The fixed-cycle selection (app.py lines 155-159): North when `last_lane`
is falsy (unset), otherwise the successor of `last_lane` in `dir_order`. -/
def nextLaneStd : Option Dir → Dir
  | none => Dir.N
  | some l => nextFixed l

/-- The `if state["phase"] == "idle":` block (app.py lines 152-178). -/
def idleStep (s : St) (now : Rat) : St :=
  if s.phase = Phase.idle then
    if s.mode = Mode.standard then
      let nx := nextLaneStd s.lastLane
      { s with
        lastLane := some nx
        phase := Phase.green
        currentLane := some nx
        greenElapsed := 0
        lastRelease := now }
    else
      match pickVehicleLane s.waiting with
      | some nx =>
          { s with
            currentLane := some nx
            phase := Phase.green
            greenElapsed := 0
            lastRelease := now }
      | none => { s with currentLane := none, phase := Phase.idle }
  else s

/-- The `tick` endpoint (app.py lines 114-182): no-op when not running,
otherwise the three phase blocks in sequence, then `vehicle_moving = 0`. -/
def tick (s : St) (now : Rat) : St :=
  if s.running then
    let dt := now - s.lastTick
    let s1 := { s with lastTick := now }
    { idleStep (yellowStep (greenStep s1 now dt) dt) now with vehicleMoving := 0 }
  else s

/-! Concrete scenario states used by the claim theorems. -/

/-- A running fixed-cycle state sitting in Yellow with an expiring timer. -/
def yellowExpiring : St :=
  { initState with
    running := true
    mode := Mode.standard
    phase := Phase.yellow
    currentLane := some Dir.W }

/-- Exhaustive-release scenario: counts N=3, vehicle-actuated, zero release
interval, just started. -/
def relScn0 : St :=
  startAct { initState with counts := ⟨3, 0, 0, 0⟩, releaseInterval := 0 }

def relScn1 : St := tick relScn0 1

def relScn2 : St := tick relScn1 2

def relScn3 : St := tick relScn2 3

def relScn4 : St := tick relScn3 4

/-- Fixed-cycle scenario with arbitrary queue contents, just started. -/
def rrScn0 (q : Quad) : St :=
  startAct { initState with mode := Mode.standard, counts := q }

def rrScn1 (q : Quad) : St := tick (rrScn0 q) 100

def rrScn2 (q : Quad) : St := tick (rrScn1 q) 200

def rrScn3 (q : Quad) : St := tick (rrScn2 q) 300

def rrScn4 (q : Quad) : St := tick (rrScn3 q) 400

def rrScn5 (q : Quad) : St := tick (rrScn4 q) 500

/-- A running state with five vehicles preset on North. -/
def runningN5 : St := startAct { initState with counts := ⟨5, 0, 0, 0⟩ }

/-- A stopped state with stale phase timers. -/
def staleTimers : St :=
  { initState with greenElapsed := 5, yellowElapsed := 7, lastRelease := 9 }

/-- An idle fixed-cycle state whose previous green was North. -/
def idleAfterN : St :=
  { initState with mode := Mode.standard, lastLane := some Dir.N }

/-- Invariant describing the state at the start of one fixed-cycle round:
running, fixed-cycle mode, fresh Green on lane `l`, clock at `tk`, with the
default 20-second green and 3-second yellow configuration. -/
def CycleSt (t : St) (l : Dir) (tk : Rat) : Prop :=
  t.running = true ∧ t.mode = Mode.standard ∧ t.phase = Phase.green ∧
  t.currentLane = some l ∧ t.lastLane = some l ∧ t.greenElapsed = 0 ∧
  t.lastTick = tk ∧ t.greenTime = 20 ∧ t.yellowTime = 3

/-! Basic lemmas about the per-direction maps. -/

theorem Quad.get_set (q : Quad) (l : Dir) (v : Int) (d : Dir) :
    (q.set l v).get d = if d = l then v else q.get d := by
  cases l <;> cases d <;> simp [Quad.get, Quad.set]

theorem mode_cases (m : Mode) : m = Mode.vehicle ∨ m = Mode.standard := by
  cases m <;> simp

/-! Unfolding equations for the phase blocks of `tick`. -/

theorem tick_not_running (s : St) (now : Rat) (h : s.running = false) :
    tick s now = s := by
  unfold tick
  simp [h]

theorem tick_eq (s : St) (now : Rat) (h : s.running = true) :
    tick s now =
      { idleStep
          (yellowStep (greenStep { s with lastTick := now } now (now - s.lastTick))
            (now - s.lastTick)) now with
        vehicleMoving := 0 } := by
  unfold tick
  simp [h]

theorem greenStep_green (s : St) (now dt : Rat) (l : Dir)
    (hph : s.phase = Phase.green) (hl : s.currentLane = some l) :
    greenStep s now dt = greenTimer (releaseStep s now l) dt l := by
  unfold greenStep
  rw [hl]
  simp [hph]

theorem greenStep_skip (s : St) (now dt : Rat) (hph : s.phase ≠ Phase.green) :
    greenStep s now dt = s := by
  unfold greenStep
  simp [hph]

theorem releaseStep_fire (s : St) (now : Rat) (l : Dir)
    (hw : 0 < s.waiting.get l) (ht : s.releaseInterval ≤ now - s.lastRelease) :
    releaseStep s now l =
      { s with
        waiting := s.waiting.set l (s.waiting.get l - 1)
        served := s.served + 1
        vehicleMoving := s.vehicleMoving + 1
        lastRelease := now } := by
  unfold releaseStep
  rw [if_pos ⟨hw, ht⟩]

theorem releaseStep_skip (s : St) (now : Rat) (l : Dir)
    (h : ¬(0 < s.waiting.get l ∧ s.releaseInterval ≤ now - s.lastRelease)) :
    releaseStep s now l = s := by
  unfold releaseStep
  rw [if_neg h]

/-- Fields that the release block never touches. -/
theorem releaseStep_frame (s : St) (now : Rat) (l : Dir) :
    (releaseStep s now l).mode = s.mode ∧
    (releaseStep s now l).counts = s.counts ∧
    (releaseStep s now l).currentLane = s.currentLane ∧
    (releaseStep s now l).phase = s.phase ∧
    (releaseStep s now l).greenTime = s.greenTime ∧
    (releaseStep s now l).yellowTime = s.yellowTime ∧
    (releaseStep s now l).releaseInterval = s.releaseInterval ∧
    (releaseStep s now l).greenElapsed = s.greenElapsed ∧
    (releaseStep s now l).yellowElapsed = s.yellowElapsed ∧
    (releaseStep s now l).lastTick = s.lastTick ∧
    (releaseStep s now l).running = s.running ∧
    (releaseStep s now l).lastLane = s.lastLane := by
  unfold releaseStep
  split <;> simp

theorem greenTimer_standard_fire (s : St) (dt : Rat) (l : Dir)
    (hm : s.mode = Mode.standard) (hfire : s.greenTime < s.greenElapsed + dt) :
    greenTimer s dt l =
      { s with greenElapsed := s.greenElapsed + dt, phase := Phase.yellow, yellowElapsed := 0 } := by
  unfold greenTimer
  rw [hm]
  simp [hfire]

theorem greenTimer_standard_hold (s : St) (dt : Rat) (l : Dir)
    (hm : s.mode = Mode.standard) (hfire : ¬ s.greenTime < s.greenElapsed + dt) :
    greenTimer s dt l = { s with greenElapsed := s.greenElapsed + dt } := by
  unfold greenTimer
  rw [hm]
  simp [hfire]

theorem greenTimer_vehicle_zero (s : St) (dt : Rat) (l : Dir)
    (hm : s.mode = Mode.vehicle) (hw : s.waiting.get l = 0) :
    greenTimer s dt l = { s with phase := Phase.yellow, yellowElapsed := 0 } := by
  unfold greenTimer
  simp [hm, hw]

theorem greenTimer_vehicle_pos (s : St) (dt : Rat) (l : Dir)
    (hm : s.mode = Mode.vehicle) (hw : s.waiting.get l ≠ 0) :
    greenTimer s dt l = s := by
  unfold greenTimer
  simp [hm, hw]

/-- Fields that the green timing block never touches. -/
theorem greenTimer_frame (s : St) (dt : Rat) (l : Dir) :
    (greenTimer s dt l).mode = s.mode ∧
    (greenTimer s dt l).counts = s.counts ∧
    (greenTimer s dt l).waiting = s.waiting ∧
    (greenTimer s dt l).served = s.served ∧
    (greenTimer s dt l).currentLane = s.currentLane ∧
    (greenTimer s dt l).greenTime = s.greenTime ∧
    (greenTimer s dt l).yellowTime = s.yellowTime ∧
    (greenTimer s dt l).releaseInterval = s.releaseInterval ∧
    (greenTimer s dt l).lastRelease = s.lastRelease ∧
    (greenTimer s dt l).lastTick = s.lastTick ∧
    (greenTimer s dt l).vehicleMoving = s.vehicleMoving ∧
    (greenTimer s dt l).running = s.running ∧
    (greenTimer s dt l).lastLane = s.lastLane := by
  rcases mode_cases s.mode with hm | hm
  · by_cases hw : s.waiting.get l = 0
    · rw [greenTimer_vehicle_zero s dt l hm hw]
      simp
    · rw [greenTimer_vehicle_pos s dt l hm hw]
      simp
  · by_cases hg : s.greenTime < s.greenElapsed + dt
    · rw [greenTimer_standard_fire s dt l hm hg]
      simp
    · rw [greenTimer_standard_hold s dt l hm hg]
      simp

theorem yellowStep_fire (s : St) (dt : Rat)
    (hph : s.phase = Phase.yellow) (hfire : s.yellowTime ≤ s.yellowElapsed + dt) :
    yellowStep s dt =
      { s with yellowElapsed := s.yellowElapsed + dt, phase := Phase.idle, currentLane := none } := by
  unfold yellowStep
  simp [hph, hfire]

theorem yellowStep_hold (s : St) (dt : Rat)
    (hph : s.phase = Phase.yellow) (hfire : ¬ s.yellowTime ≤ s.yellowElapsed + dt) :
    yellowStep s dt = { s with yellowElapsed := s.yellowElapsed + dt } := by
  unfold yellowStep
  simp [hph, hfire]

theorem yellowStep_skip (s : St) (dt : Rat) (hph : s.phase ≠ Phase.yellow) :
    yellowStep s dt = s := by
  unfold yellowStep
  simp [hph]

/-- Fields that the yellow block never touches. -/
theorem yellowStep_frame (s : St) (dt : Rat) :
    (yellowStep s dt).mode = s.mode ∧
    (yellowStep s dt).counts = s.counts ∧
    (yellowStep s dt).waiting = s.waiting ∧
    (yellowStep s dt).served = s.served ∧
    (yellowStep s dt).greenTime = s.greenTime ∧
    (yellowStep s dt).yellowTime = s.yellowTime ∧
    (yellowStep s dt).releaseInterval = s.releaseInterval ∧
    (yellowStep s dt).greenElapsed = s.greenElapsed ∧
    (yellowStep s dt).lastRelease = s.lastRelease ∧
    (yellowStep s dt).lastTick = s.lastTick ∧
    (yellowStep s dt).vehicleMoving = s.vehicleMoving ∧
    (yellowStep s dt).running = s.running ∧
    (yellowStep s dt).lastLane = s.lastLane := by
  by_cases hph : s.phase = Phase.yellow
  · by_cases hf : s.yellowTime ≤ s.yellowElapsed + dt
    · rw [yellowStep_fire s dt hph hf]
      simp
    · rw [yellowStep_hold s dt hph hf]
      simp
  · rw [yellowStep_skip s dt hph]
    simp

theorem idleStep_standard (s : St) (now : Rat)
    (hph : s.phase = Phase.idle) (hm : s.mode = Mode.standard) :
    idleStep s now =
      { s with
        lastLane := some (nextLaneStd s.lastLane)
        phase := Phase.green
        currentLane := some (nextLaneStd s.lastLane)
        greenElapsed := 0
        lastRelease := now } := by
  unfold idleStep
  simp [hph, hm]

theorem idleStep_vehicle_some (s : St) (now : Rat) (nx : Dir)
    (hph : s.phase = Phase.idle) (hm : s.mode = Mode.vehicle)
    (hp : pickVehicleLane s.waiting = some nx) :
    idleStep s now =
      { s with
        currentLane := some nx
        phase := Phase.green
        greenElapsed := 0
        lastRelease := now } := by
  unfold idleStep
  simp [hph, hm, hp]

theorem idleStep_vehicle_none (s : St) (now : Rat)
    (hph : s.phase = Phase.idle) (hm : s.mode = Mode.vehicle)
    (hp : pickVehicleLane s.waiting = none) :
    idleStep s now = { s with currentLane := none, phase := Phase.idle } := by
  unfold idleStep
  simp [hph, hm, hp]

theorem idleStep_skip (s : St) (now : Rat) (hph : s.phase ≠ Phase.idle) :
    idleStep s now = s := by
  unfold idleStep
  simp [hph]

/-- Fields that the idle block never touches. -/
theorem idleStep_frame (s : St) (now : Rat) :
    (idleStep s now).mode = s.mode ∧
    (idleStep s now).counts = s.counts ∧
    (idleStep s now).waiting = s.waiting ∧
    (idleStep s now).served = s.served ∧
    (idleStep s now).greenTime = s.greenTime ∧
    (idleStep s now).yellowTime = s.yellowTime ∧
    (idleStep s now).releaseInterval = s.releaseInterval ∧
    (idleStep s now).yellowElapsed = s.yellowElapsed ∧
    (idleStep s now).lastTick = s.lastTick ∧
    (idleStep s now).vehicleMoving = s.vehicleMoving ∧
    (idleStep s now).running = s.running := by
  by_cases hph : s.phase = Phase.idle
  · rcases mode_cases s.mode with hm | hm
    · rcases hp : pickVehicleLane s.waiting with _ | nx
      · rw [idleStep_vehicle_none s now hph hm hp]
        simp
      · rw [idleStep_vehicle_some s now nx hph hm hp]
        simp
    · rw [idleStep_standard s now hph hm]
      simp
  · rw [idleStep_skip s now hph]
    simp

theorem idleStep_lastRelease (s : St) (now : Rat) :
    (idleStep s now).lastRelease = s.lastRelease ∨ (idleStep s now).lastRelease = now := by
  by_cases hph : s.phase = Phase.idle
  · rcases mode_cases s.mode with hm | hm
    · rcases hp : pickVehicleLane s.waiting with _ | nx
      · rw [idleStep_vehicle_none s now hph hm hp]
        exact Or.inl rfl
      · rw [idleStep_vehicle_some s now nx hph hm hp]
        exact Or.inr rfl
    · rw [idleStep_standard s now hph hm]
      exact Or.inr rfl
  · rw [idleStep_skip s now hph]
    exact Or.inl rfl

theorem idleStep_vehicle_pick (s : St) (now : Rat)
    (hph : s.phase = Phase.idle) (hm : s.mode = Mode.vehicle) :
    (idleStep s now).currentLane = pickVehicleLane s.waiting := by
  rcases hp : pickVehicleLane s.waiting with _ | nx
  · rw [idleStep_vehicle_none s now hph hm hp]
  · rw [idleStep_vehicle_some s now nx hph hm hp]

theorem greenStep_none (s : St) (now dt : Rat) (hl : s.currentLane = none) :
    greenStep s now dt = s := by
  unfold greenStep
  rw [hl]
  split <;> rfl

/-- Fields that the whole green block never touches. -/
theorem greenStep_frame (s : St) (now dt : Rat) :
    (greenStep s now dt).mode = s.mode ∧
    (greenStep s now dt).counts = s.counts ∧
    (greenStep s now dt).currentLane = s.currentLane ∧
    (greenStep s now dt).greenTime = s.greenTime ∧
    (greenStep s now dt).yellowTime = s.yellowTime ∧
    (greenStep s now dt).releaseInterval = s.releaseInterval ∧
    (greenStep s now dt).lastTick = s.lastTick ∧
    (greenStep s now dt).running = s.running ∧
    (greenStep s now dt).lastLane = s.lastLane := by
  by_cases hph : s.phase = Phase.green
  · rcases hl : s.currentLane with _ | l
    · rw [greenStep_none s now dt hl]
      simp [hl]
    · rw [greenStep_green s now dt l hph hl]
      obtain ⟨g1, g2, _, _, g5, g6, g7, g8, _, g10, _, g12, g13⟩ :=
        greenTimer_frame (releaseStep s now l) dt l
      obtain ⟨r1, r2, r3, _, r5, r6, r7, _, _, r10, r11, r12⟩ := releaseStep_frame s now l
      exact ⟨g1.trans r1, g2.trans r2, (g5.trans r3).trans hl, g6.trans r5, g7.trans r6,
        g8.trans r7, g10.trans r10, g12.trans r11, g13.trans r12⟩
  · rw [greenStep_skip s now dt hph]
    simp

theorem greenStep_release_fire (s : St) (now dt : Rat) (l : Dir)
    (hph : s.phase = Phase.green) (hl : s.currentLane = some l)
    (hw : 0 < s.waiting.get l) (ht : s.releaseInterval ≤ now - s.lastRelease) :
    (greenStep s now dt).waiting = s.waiting.set l (s.waiting.get l - 1) ∧
    (greenStep s now dt).served = s.served + 1 ∧
    (greenStep s now dt).lastRelease = now := by
  rw [greenStep_green s now dt l hph hl, releaseStep_fire s now l hw ht]
  exact ⟨(greenTimer_frame _ dt l).2.2.1, (greenTimer_frame _ dt l).2.2.2.1,
    (greenTimer_frame _ dt l).2.2.2.2.2.2.2.2.1⟩

theorem greenStep_release_skip (s : St) (now dt : Rat) (l : Dir)
    (hph : s.phase = Phase.green) (hl : s.currentLane = some l)
    (h : ¬(0 < s.waiting.get l ∧ s.releaseInterval ≤ now - s.lastRelease)) :
    (greenStep s now dt).waiting = s.waiting ∧
    (greenStep s now dt).served = s.served ∧
    (greenStep s now dt).lastRelease = s.lastRelease := by
  rw [greenStep_green s now dt l hph hl, releaseStep_skip s now l h]
  exact ⟨(greenTimer_frame s dt l).2.2.1, (greenTimer_frame s dt l).2.2.2.1,
    (greenTimer_frame s dt l).2.2.2.2.2.2.2.2.1⟩

theorem greenStep_served_cases (s : St) (now dt : Rat) :
    (greenStep s now dt).served = s.served ∨ (greenStep s now dt).served = s.served + 1 := by
  by_cases hph : s.phase = Phase.green
  · rcases hl : s.currentLane with _ | l
    · rw [greenStep_none s now dt hl]
      exact Or.inl rfl
    · by_cases hrel : 0 < s.waiting.get l ∧ s.releaseInterval ≤ now - s.lastRelease
      · exact Or.inr (greenStep_release_fire s now dt l hph hl hrel.1 hrel.2).2.1
      · exact Or.inl (greenStep_release_skip s now dt l hph hl hrel).2.1
  · rw [greenStep_skip s now dt hph]
    exact Or.inl rfl

theorem greenStep_waiting_le (s : St) (now dt : Rat) (d : Dir) :
    (greenStep s now dt).waiting.get d ≤ s.waiting.get d := by
  by_cases hph : s.phase = Phase.green
  · rcases hl : s.currentLane with _ | l
    · rw [greenStep_none s now dt hl]
    · by_cases hrel : 0 < s.waiting.get l ∧ s.releaseInterval ≤ now - s.lastRelease
      · rw [(greenStep_release_fire s now dt l hph hl hrel.1 hrel.2).1, Quad.get_set]
        by_cases hd : d = l
        · simp only [hd, if_pos rfl]
          omega
        · simp [hd]
      · rw [(greenStep_release_skip s now dt l hph hl hrel).1]
  · rw [greenStep_skip s now dt hph]

theorem greenStep_waiting_nonneg (s : St) (now dt : Rat)
    (h : ∀ e, 0 ≤ s.waiting.get e) (d : Dir) :
    0 ≤ (greenStep s now dt).waiting.get d := by
  by_cases hph : s.phase = Phase.green
  · rcases hl : s.currentLane with _ | l
    · rw [greenStep_none s now dt hl]
      exact h d
    · by_cases hrel : 0 < s.waiting.get l ∧ s.releaseInterval ≤ now - s.lastRelease
      · rw [(greenStep_release_fire s now dt l hph hl hrel.1 hrel.2).1, Quad.get_set]
        by_cases hd : d = l
        · have hwl := hrel.1
          simp only [hd, if_pos rfl]
          omega
        · simp only [if_neg hd]
          exact h d
      · rw [(greenStep_release_skip s now dt l hph hl hrel).1]
        exact h d
  · rw [greenStep_skip s now dt hph]
    exact h d

theorem running_false_of_not (s : St) (hr : ¬ s.running = true) : s.running = false := by
  revert hr
  cases s.running <;> simp

/-- Fields that a whole `tick` never changes. -/
theorem tick_frame (s : St) (now : Rat) :
    (tick s now).counts = s.counts ∧
    (tick s now).mode = s.mode ∧
    (tick s now).running = s.running ∧
    (tick s now).greenTime = s.greenTime ∧
    (tick s now).yellowTime = s.yellowTime ∧
    (tick s now).releaseInterval = s.releaseInterval := by
  by_cases hr : s.running = true
  · rw [tick_eq s now hr]
    obtain ⟨i1, i2, _, _, i5, i6, i7, _, _, _, i11⟩ :=
      idleStep_frame (yellowStep (greenStep { s with lastTick := now } now (now - s.lastTick))
        (now - s.lastTick)) now
    obtain ⟨y1, y2, _, _, y5, y6, y7, _, _, _, _, y12, _⟩ :=
      yellowStep_frame (greenStep { s with lastTick := now } now (now - s.lastTick))
        (now - s.lastTick)
    obtain ⟨g1, g2, _, g4, g5, g6, _, g8, _⟩ :=
      greenStep_frame { s with lastTick := now } now (now - s.lastTick)
    exact ⟨i2.trans (y2.trans g2), i1.trans (y1.trans g1), i11.trans (y12.trans g8),
      i5.trans (y5.trans g4), i6.trans (y6.trans g5), i7.trans (y7.trans g6)⟩
  · rw [tick_not_running s now (running_false_of_not s hr)]
    simp

theorem tick_waiting_le (s : St) (now : Rat) (d : Dir) :
    (tick s now).waiting.get d ≤ s.waiting.get d := by
  by_cases hr : s.running = true
  · rw [tick_eq s now hr]
    show (idleStep (yellowStep (greenStep { s with lastTick := now } now (now - s.lastTick))
      (now - s.lastTick)) now).waiting.get d ≤ s.waiting.get d
    rw [(idleStep_frame _ now).2.2.1, (yellowStep_frame _ _).2.2.1]
    exact greenStep_waiting_le { s with lastTick := now } now (now - s.lastTick) d
  · rw [tick_not_running s now (running_false_of_not s hr)]

theorem tick_waiting_nonneg (s : St) (now : Rat)
    (h : ∀ e, 0 ≤ s.waiting.get e) (d : Dir) :
    0 ≤ (tick s now).waiting.get d := by
  by_cases hr : s.running = true
  · rw [tick_eq s now hr]
    show 0 ≤ (idleStep (yellowStep (greenStep { s with lastTick := now } now (now - s.lastTick))
      (now - s.lastTick)) now).waiting.get d
    rw [(idleStep_frame _ now).2.2.1, (yellowStep_frame _ _).2.2.1]
    exact greenStep_waiting_nonneg { s with lastTick := now } now (now - s.lastTick) h d
  · rw [tick_not_running s now (running_false_of_not s hr)]
    exact h d

theorem tick_served_cases (s : St) (now : Rat) :
    (tick s now).served = s.served ∨ (tick s now).served = s.served + 1 := by
  by_cases hr : s.running = true
  · rw [tick_eq s now hr]
    show (idleStep (yellowStep (greenStep { s with lastTick := now } now (now - s.lastTick))
        (now - s.lastTick)) now).served = s.served ∨
      (idleStep (yellowStep (greenStep { s with lastTick := now } now (now - s.lastTick))
        (now - s.lastTick)) now).served = s.served + 1
    rw [(idleStep_frame _ now).2.2.2.1, (yellowStep_frame _ _).2.2.2.1]
    exact greenStep_served_cases { s with lastTick := now } now (now - s.lastTick)
  · rw [tick_not_running s now (running_false_of_not s hr)]
    exact Or.inl rfl

theorem tick_green_fire (s : St) (now : Rat) (l : Dir)
    (hr : s.running = true) (hph : s.phase = Phase.green) (hl : s.currentLane = some l)
    (hw : 0 < s.waiting.get l) (ht : s.releaseInterval ≤ now - s.lastRelease) :
    (tick s now).served = s.served + 1 ∧
    (tick s now).waiting.get l = s.waiting.get l - 1 ∧
    (tick s now).lastRelease = now := by
  rw [tick_eq s now hr]
  have hfire :=
    greenStep_release_fire { s with lastTick := now } now (now - s.lastTick) l hph hl hw ht
  refine ⟨?_, ?_, ?_⟩
  · show (idleStep (yellowStep (greenStep { s with lastTick := now } now (now - s.lastTick))
      (now - s.lastTick)) now).served = s.served + 1
    rw [(idleStep_frame _ now).2.2.2.1, (yellowStep_frame _ _).2.2.2.1]
    exact hfire.2.1
  · show (idleStep (yellowStep (greenStep { s with lastTick := now } now (now - s.lastTick))
      (now - s.lastTick)) now).waiting.get l = s.waiting.get l - 1
    rw [(idleStep_frame _ now).2.2.1, (yellowStep_frame _ _).2.2.1, hfire.1, Quad.get_set,
      if_pos rfl]
  · show (idleStep (yellowStep (greenStep { s with lastTick := now } now (now - s.lastTick))
      (now - s.lastTick)) now).lastRelease = now
    have h9 : (yellowStep (greenStep { s with lastTick := now } now (now - s.lastTick))
        (now - s.lastTick)).lastRelease = now := by
      rw [(yellowStep_frame _ _).2.2.2.2.2.2.2.2.1]
      exact hfire.2.2
    rcases idleStep_lastRelease (yellowStep (greenStep { s with lastTick := now } now
      (now - s.lastTick)) (now - s.lastTick)) now with h | h
    · rw [h]
      exact h9
    · exact h

theorem tick_green_skip (s : St) (now : Rat) (l : Dir)
    (hr : s.running = true) (hph : s.phase = Phase.green) (hl : s.currentLane = some l)
    (hrel : ¬(0 < s.waiting.get l ∧ s.releaseInterval ≤ now - s.lastRelease)) :
    (tick s now).served = s.served ∧ (tick s now).waiting = s.waiting := by
  rw [tick_eq s now hr]
  have hskip :=
    greenStep_release_skip { s with lastTick := now } now (now - s.lastTick) l hph hl hrel
  constructor
  · show (idleStep (yellowStep (greenStep { s with lastTick := now } now (now - s.lastTick))
      (now - s.lastTick)) now).served = s.served
    rw [(idleStep_frame _ now).2.2.2.1, (yellowStep_frame _ _).2.2.2.1]
    exact hskip.2.1
  · show (idleStep (yellowStep (greenStep { s with lastTick := now } now (now - s.lastTick))
      (now - s.lastTick)) now).waiting = s.waiting
    rw [(idleStep_frame _ now).2.2.1, (yellowStep_frame _ _).2.2.1]
    exact hskip.1

theorem tick_not_green_served (s : St) (now : Rat) (hph : s.phase ≠ Phase.green) :
    (tick s now).served = s.served := by
  by_cases hr : s.running = true
  · rw [tick_eq s now hr]
    show (idleStep (yellowStep (greenStep { s with lastTick := now } now (now - s.lastTick))
      (now - s.lastTick)) now).served = s.served
    rw [(idleStep_frame _ now).2.2.2.1, (yellowStep_frame _ _).2.2.2.1,
      greenStep_skip { s with lastTick := now } now (now - s.lastTick) hph]
  · rw [tick_not_running s now (running_false_of_not s hr)]

/-- A tick taken while Idle in fixed-cycle mode: the round-robin lane starts
its green immediately. -/
theorem tick_idle_standard (s : St) (now : Rat)
    (hr : s.running = true) (hph : s.phase = Phase.idle) (hm : s.mode = Mode.standard) :
    tick s now =
      { s with
        lastTick := now
        lastLane := some (nextLaneStd s.lastLane)
        phase := Phase.green
        currentLane := some (nextLaneStd s.lastLane)
        greenElapsed := 0
        lastRelease := now
        vehicleMoving := 0 } := by
  rw [tick_eq s now hr]
  rw [greenStep_skip { s with lastTick := now } now (now - s.lastTick)
    (by show s.phase ≠ Phase.green; rw [hph]; simp)]
  rw [yellowStep_skip { s with lastTick := now } (now - s.lastTick)
    (by show s.phase ≠ Phase.yellow; rw [hph]; simp)]
  rw [idleStep_standard { s with lastTick := now } now hph hm]

/-- A tick taken while Green in fixed-cycle mode with both the green and the
yellow timers expiring inside the step: the phase machine runs Green→Yellow,
Yellow→Idle and Idle→Green within this single call. -/
theorem tick_green_standard_cycle (s : St) (now : Rat) (l : Dir)
    (hr : s.running = true) (hm : s.mode = Mode.standard) (hph : s.phase = Phase.green)
    (hl : s.currentLane = some l)
    (hgfire : s.greenTime < s.greenElapsed + (now - s.lastTick))
    (hyfire : s.yellowTime ≤ now - s.lastTick) :
    tick s now =
      { releaseStep { s with lastTick := now } now l with
        greenElapsed := 0
        yellowElapsed := 0 + (now - s.lastTick)
        phase := Phase.green
        currentLane := some (nextLaneStd s.lastLane)
        lastLane := some (nextLaneStd s.lastLane)
        lastRelease := now
        vehicleMoving := 0 } := by
  obtain ⟨r1, r2, r3, r4, r5, r6, r7, r8, r9, r10, r11, r12⟩ :=
    releaseStep_frame { s with lastTick := now } now l
  rw [tick_eq s now hr]
  rw [greenStep_green { s with lastTick := now } now (now - s.lastTick) l hph hl]
  rw [greenTimer_standard_fire (releaseStep { s with lastTick := now } now l)
    (now - s.lastTick) l (by rw [r1]; exact hm) (by rw [r5, r8]; exact hgfire)]
  rw [yellowStep_fire _ (now - s.lastTick) rfl
    (by show (releaseStep { s with lastTick := now } now l).yellowTime ≤ 0 + (now - s.lastTick)
        rw [r6, zero_add]
        exact hyfire)]
  rw [idleStep_standard _ now rfl (by show (releaseStep _ _ _).mode = Mode.standard; rw [r1]; exact hm)]
  show ({ releaseStep { s with lastTick := now } now l with
      greenElapsed := 0
      yellowElapsed := 0 + (now - s.lastTick)
      phase := Phase.green
      currentLane := some (nextLaneStd ((releaseStep { s with lastTick := now } now l).lastLane))
      lastLane := some (nextLaneStd ((releaseStep { s with lastTick := now } now l).lastLane))
      lastRelease := now
      vehicleMoving := 0 } : St) = _
  rw [r12]

/-- One full fixed-cycle round: from a fresh green on `l` with the clock at
`tk`, a tick far enough in the future hands the green to the next lane. -/
theorem cycle_step (t : St) (l : Dir) (tk : Rat) (h : CycleSt t l tk) (now : Rat)
    (h1 : 20 < now - tk) (h2 : 3 ≤ now - tk) :
    CycleSt (tick t now) (nextFixed l) now := by
  obtain ⟨hrun, hmode, hph, hlane, hlast, hge, htk, hgt, hyt⟩ := h
  obtain ⟨r1, r2, r3, r4, r5, r6, r7, r8, r9, r10, r11, r12⟩ :=
    releaseStep_frame { t with lastTick := now } now l
  rw [tick_green_standard_cycle t now l hrun hmode hph hlane
    (by rw [hgt, hge, htk, zero_add]; exact h1) (by rw [hyt, htk]; exact h2)]
  refine ⟨?_, ?_, rfl, ?_, ?_, rfl, ?_, ?_, ?_⟩
  · show (releaseStep { t with lastTick := now } now l).running = true
    rw [r11]
    exact hrun
  · show (releaseStep { t with lastTick := now } now l).mode = Mode.standard
    rw [r1]
    exact hmode
  · show some (nextLaneStd t.lastLane) = some (nextFixed l)
    rw [hlast]
    rfl
  · show some (nextLaneStd t.lastLane) = some (nextFixed l)
    rw [hlast]
    rfl
  · show (releaseStep { t with lastTick := now } now l).lastTick = now
    rw [r10]
  · show (releaseStep { t with lastTick := now } now l).greenTime = 20
    rw [r5]
    exact hgt
  · show (releaseStep { t with lastTick := now } now l).yellowTime = 3
    rw [r6]
    exact hyt

/-! Correctness of the vehicle-actuated lane picker: the head of the
reverse-sorted `(value, label)` list carries the maximum waiting value and,
among tied values, the label that sorts last. -/

theorem pairLt_asymm (a b : Int × Dir) (h1 : pairLt a b) (h2 : pairLt b a) : False := by
  rcases h1 with h1 | ⟨h1, h1s⟩ <;> rcases h2 with h2 | ⟨h2, h2s⟩
  · omega
  · omega
  · omega
  · exact absurd h2s (not_lt.mpr (le_of_lt h1s))

instance : IsTotal (Int × Dir) pairGe := by
  constructor
  intro a b
  by_cases h : pairLt a b
  · exact Or.inr fun h2 => pairLt_asymm a b h h2
  · exact Or.inl h

instance : IsTrans (Int × Dir) pairGe := by
  constructor
  intro a b c hab hbc
  unfold pairGe pairLt at *
  push_neg at *
  obtain ⟨hab1, hab2⟩ := hab
  obtain ⟨hbc1, hbc2⟩ := hbc
  constructor
  · omega
  · intro hac
    have hba : a.1 = b.1 := by omega
    have hcb : b.1 = c.1 := by omega
    exact le_trans (hbc2 hcb) (hab2 hba)

theorem get_mem_waitingPairs (q : Quad) (d : Dir) : (q.get d, d) ∈ waitingPairs q := by
  cases d <;> simp [waitingPairs, Quad.get]

theorem mem_waitingPairs_val (q : Quad) (v : Int) (d : Dir)
    (h : (v, d) ∈ waitingPairs q) : v = q.get d := by
  cases d <;> simp_all [waitingPairs, Quad.get]

theorem pickVehicleLane_spec (q : Quad) (d : Dir) (h : pickVehicleLane q = some d) :
    0 < q.get d ∧ (∀ e, q.get e ≤ q.get d) ∧
      ∀ e, q.get e = q.get d → dirLabel e ≤ dirLabel d := by
  unfold pickVehicleLane at h
  rcases hopt : options q with _ | ⟨⟨v, d0⟩, tl⟩
  · rw [hopt] at h
    exact absurd h (by simp)
  · rw [hopt] at h
    dsimp only at h
    by_cases hv : 0 < v
    · rw [if_pos hv] at h
      injection h with h
      subst h
      have hperm := List.perm_insertionSort pairGe (waitingPairs q)
      have hmem : (v, d0) ∈ waitingPairs q := by
        refine hperm.subset ?_
        show (v, d0) ∈ options q
        rw [hopt]
        exact List.mem_cons_self _ _
      have hv_eq : v = q.get d0 := mem_waitingPairs_val q v d0 hmem
      have hsorted : List.Sorted pairGe (options q) :=
        List.sorted_insertionSort pairGe (waitingPairs q)
      rw [hopt] at hsorted
      have hdom : ∀ x ∈ tl, pairGe (v, d0) x := (List.sorted_cons.mp hsorted).1
      have key : ∀ e : Dir, q.get e ≤ v ∧ (q.get e = v → dirLabel e ≤ dirLabel d0) := by
        intro e
        have he : (q.get e, e) ∈ options q := by
          refine hperm.symm.subset (get_mem_waitingPairs q e)
        rw [hopt] at he
        rcases List.mem_cons.mp he with he | he
        · have h1 : q.get e = v := congrArg Prod.fst he
          have h2 : e = d0 := congrArg Prod.snd he
          subst h2
          exact ⟨le_of_eq h1, fun _ => le_rfl⟩
        · have hge := hdom _ he
          unfold pairGe pairLt at hge
          push_neg at hge
          exact ⟨hge.1, fun heq => hge.2 heq.symm⟩
      subst hv_eq
      exact ⟨hv, fun e => (key e).1, fun e he => (key e).2 he⟩
    · rw [if_neg hv] at h
      exact absurd h (by simp)

/-! Behaviour of the `set_counts` loop. -/

theorem setCountsDir_neg (s : St) (d : Dir) (v : Int) (h : ¬ 0 ≤ v) :
    setCountsDir s d (some v) = s := by
  unfold setCountsDir
  dsimp only
  rw [if_neg h]

theorem setCountsDir_pos_running (s : St) (d : Dir) (v : Int) (h0 : 0 ≤ v)
    (hr : s.running = true) :
    setCountsDir s d (some v) = { s with counts := s.counts.set d v } := by
  unfold setCountsDir
  simp [h0, hr]

theorem setCountsDir_pos_stopped (s : St) (d : Dir) (v : Int) (h0 : 0 ≤ v)
    (hr : s.running = false) :
    setCountsDir s d (some v) =
      { s with counts := s.counts.set d v, waiting := s.waiting.set d v } := by
  unfold setCountsDir
  simp [h0, hr]

theorem setCountsDir_running (s : St) (d : Dir) (val : Option Int) :
    (setCountsDir s d val).running = s.running := by
  rcases val with _ | v
  · rfl
  · by_cases h0 : 0 ≤ v
    · cases hb : s.running
      · rw [setCountsDir_pos_stopped s d v h0 hb, hb]
      · rw [setCountsDir_pos_running s d v h0 hb, hb]
    · rw [setCountsDir_neg s d v h0]

theorem setCountsDir_waiting_of_running (s : St) (d : Dir) (val : Option Int)
    (hr : s.running = true) : (setCountsDir s d val).waiting = s.waiting := by
  rcases val with _ | v
  · rfl
  · by_cases h0 : 0 ≤ v
    · rw [setCountsDir_pos_running s d v h0 hr]
    · rw [setCountsDir_neg s d v h0]

theorem setCounts_waiting_of_running (s : St) (inp : CountsInput) (hr : s.running = true) :
    (setCounts s inp).waiting = s.waiting := by
  have e1 : (setCountsDir s Dir.N inp.n).running = true :=
    (setCountsDir_running s Dir.N inp.n).trans hr
  have e2 : (setCountsDir (setCountsDir s Dir.N inp.n) Dir.E inp.e).running = true :=
    (setCountsDir_running _ Dir.E inp.e).trans e1
  have e3 : (setCountsDir (setCountsDir (setCountsDir s Dir.N inp.n) Dir.E inp.e)
      Dir.S inp.s).running = true :=
    (setCountsDir_running _ Dir.S inp.s).trans e2
  show (setCountsDir (setCountsDir (setCountsDir (setCountsDir s Dir.N inp.n) Dir.E inp.e)
    Dir.S inp.s) Dir.W inp.w).waiting = s.waiting
  rw [setCountsDir_waiting_of_running _ Dir.W inp.w e3,
    setCountsDir_waiting_of_running _ Dir.S inp.s e2,
    setCountsDir_waiting_of_running _ Dir.E inp.e e1,
    setCountsDir_waiting_of_running _ Dir.N inp.n hr]

/-! Claim theorems. -/

/-- Claim C1 is false on the code: from a running fixed-cycle state in Yellow
with an expired timer, a single `tick` performs the Yellow→Idle transition AND
the Idle handling (lane selection, Idle→Green) in the same call — the final
phase is Green with a freshly selected lane, so the Idle handling is not
deferred to the next tick. -/
theorem c1_single_transition_counterexample :
    yellowExpiring.running = true ∧
    yellowExpiring.phase = Phase.yellow ∧
    (tick yellowExpiring 5).phase = Phase.green ∧
    (tick yellowExpiring 5).currentLane = some Dir.N ∧
    (tick yellowExpiring 5).lastLane = some Dir.N := by
  with_unfolding_all decide

/-- Claim C1 (amended): the three transition checks of `tick` run in sequence
within one call, so a Yellow→Idle transition is followed by the Idle handling
in the same tick: in fixed-cycle mode, whenever the yellow timer expires
during a tick, that same tick selects the next round-robin lane and enters
Green. -/
theorem c1_idle_handling_same_tick (s : St) (now : Rat)
    (hr : s.running = true) (hph : s.phase = Phase.yellow) (hm : s.mode = Mode.standard)
    (hy : s.yellowTime ≤ s.yellowElapsed + (now - s.lastTick)) :
    (tick s now).phase = Phase.green ∧
    (tick s now).currentLane = some (nextLaneStd s.lastLane) ∧
    (tick s now).lastLane = some (nextLaneStd s.lastLane) := by
  rw [tick_eq s now hr]
  rw [greenStep_skip { s with lastTick := now } now (now - s.lastTick)
    (by show s.phase ≠ Phase.green; rw [hph]; simp)]
  rw [yellowStep_fire { s with lastTick := now } (now - s.lastTick) hph hy]
  rw [idleStep_standard _ now rfl (by show s.mode = Mode.standard; exact hm)]
  exact ⟨rfl, rfl, rfl⟩

/-- Witness for the amended Claim C1 at the concrete expiring-yellow state. -/
theorem c1_idle_handling_same_tick_witness :
    (tick yellowExpiring 5).phase = Phase.green ∧
    (tick yellowExpiring 5).currentLane = some (nextLaneStd yellowExpiring.lastLane) ∧
    (tick yellowExpiring 5).lastLane = some (nextLaneStd yellowExpiring.lastLane) :=
  c1_idle_handling_same_tick yellowExpiring 5 rfl rfl rfl (by with_unfolding_all decide)

/-- Claim C2: in vehicle-actuated mode the Idle lane pick returns a direction
whose waiting value is positive and maximal, and among directions tied for
the maximum it prefers the one whose label sorts last in ascending string
order; in particular for waiting = ⟨N 2, E 0, S 0, W 2⟩ it picks West. -/
theorem c2_vehicle_tie_break :
    (∀ q d, pickVehicleLane q = some d →
      0 < q.get d ∧ (∀ e, q.get e ≤ q.get d) ∧
        ∀ e, q.get e = q.get d → dirLabel e ≤ dirLabel d) ∧
    (∀ s now, s.phase = Phase.idle → s.mode = Mode.vehicle →
      (idleStep s now).currentLane = pickVehicleLane s.waiting) ∧
    pickVehicleLane ⟨2, 0, 0, 2⟩ = some Dir.W := by
  refine ⟨pickVehicleLane_spec, idleStep_vehicle_pick, ?_⟩
  with_unfolding_all decide

/-- Witness for Claim C2 at waiting = ⟨2, 0, 0, 2⟩ and the pick West. -/
theorem c2_vehicle_tie_break_witness :
    (0 : Int) < (⟨2, 0, 0, 2⟩ : Quad).get Dir.W ∧
    (⟨2, 0, 0, 2⟩ : Quad).get Dir.N ≤ (⟨2, 0, 0, 2⟩ : Quad).get Dir.W ∧
    dirLabel Dir.N ≤ dirLabel Dir.W := by
  have h := c2_vehicle_tie_break.1 ⟨2, 0, 0, 2⟩ Dir.W (by with_unfolding_all decide)
  exact ⟨h.1, h.2.1 Dir.N, h.2.2 Dir.N rfl⟩

/-- Claim C3 is false on the code: `config` stores `float(val)` for every
provided value with no positivity check, so the non-positive greenTime -1 is
stored rather than rejected. -/
theorem c3_reject_nonpositive_counterexample :
    ((-1 : Rat) ≤ 0) ∧
    initState.greenTime = 20 ∧
    (setConfig initState none none (some (-1))).greenTime = -1 := by
  refine ⟨by norm_num, rfl, rfl⟩

/-- Claim C3 (amended): `setConfig` stores every provided value unchanged —
non-positive values included — and leaves omitted fields and the rest of the
state alone; there is no validation. -/
theorem c3_setConfig_stores_any_value (s : St) (yv rv gv : Option Rat) :
    (setConfig s yv rv gv).yellowTime = yv.getD s.yellowTime ∧
    (setConfig s yv rv gv).releaseInterval = rv.getD s.releaseInterval ∧
    (setConfig s yv rv gv).greenTime = gv.getD s.greenTime ∧
    (setConfig s yv rv gv).counts = s.counts ∧
    (setConfig s yv rv gv).waiting = s.waiting ∧
    (setConfig s yv rv gv).phase = s.phase ∧
    (setConfig s yv rv gv).running = s.running := by
  cases yv <;> cases rv <;> cases gv <;> simp [setConfig]

/-- Claim C4 is false on the code: `set_counts` updates `counts` even while
running (only `waiting` is frozen), after which waiting[N] = 5 exceeds
counts[N] = 2. -/
theorem c4_counts_frozen_counterexample :
    runningN5.running = true ∧
    runningN5.counts.get Dir.N = 5 ∧
    (setCounts runningN5 ⟨some 2, none, none, none⟩).counts.get Dir.N = 2 ∧
    (setCounts runningN5 ⟨some 2, none, none, none⟩).waiting.get Dir.N = 5 ∧
    ¬ (setCounts runningN5 ⟨some 2, none, none, none⟩).waiting.get Dir.N ≤
        (setCounts runningN5 ⟨some 2, none, none, none⟩).counts.get Dir.N := by
  with_unfolding_all decide

/-- Claim C4 (amended): while running, `setCounts` leaves `waiting` unchanged
but may still modify `counts`; the invariant waiting[d] ≤ counts[d] does hold
throughout a run consisting of `start` followed only by ticks. -/
theorem c4_run_waiting_le_counts :
    (∀ s inp, s.running = true → (setCounts s inp).waiting = s.waiting) ∧
    (∀ (s : St) (nows : List Rat) (d : Dir),
      (List.foldl tick (startAct s) nows).waiting.get d ≤
        (List.foldl tick (startAct s) nows).counts.get d) := by
  constructor
  · exact setCounts_waiting_of_running
  · intro s nows d
    have hinv : ∀ (t : St), (∀ e, t.waiting.get e ≤ t.counts.get e) →
        ∀ e, (List.foldl tick t nows).waiting.get e ≤ (List.foldl tick t nows).counts.get e := by
      induction nows with
      | nil => exact fun t ht => ht
      | cons n ns ih =>
        intro t ht e
        rw [List.foldl_cons]
        refine ih (tick t n) (fun e2 => ?_) e
        rw [(tick_frame t n).1]
        exact le_trans (tick_waiting_le t n e2) (ht e2)
    exact hinv (startAct s) (fun e => le_rfl) d

/-- Witness for the amended Claim C4: setCounts on the running state leaves
waiting untouched. -/
theorem c4_run_waiting_le_counts_witness :
    (setCounts runningN5 ⟨some 2, none, none, none⟩).waiting = runningN5.waiting :=
  c4_run_waiting_le_counts.1 runningN5 ⟨some 2, none, none, none⟩ rfl

/-- Claim C5: at most one vehicle is released per tick; when the phase is
Green with a current lane, a release (served + 1) happens exactly when the
lane has waiting vehicles and the release interval has elapsed, decrementing
that lane's waiting by one and stamping lastRelease with now; no release
happens outside Green; and the concrete counts = ⟨3,0,0,0⟩, vehicle-actuated,
releaseInterval = 0 run serves 3 vehicles in 3 qualifying ticks and turns
Yellow on the tick that empties North. -/
theorem c5_release_process :
    (∀ s now, (tick s now).served ≤ s.served + 1) ∧
    (∀ s now l, s.running = true → s.phase = Phase.green → s.currentLane = some l →
      (((tick s now).served = s.served + 1) ↔
        (0 < s.waiting.get l ∧ s.releaseInterval ≤ now - s.lastRelease))) ∧
    (∀ s now l, s.running = true → s.phase = Phase.green → s.currentLane = some l →
      0 < s.waiting.get l → s.releaseInterval ≤ now - s.lastRelease →
      (tick s now).waiting.get l = s.waiting.get l - 1 ∧ (tick s now).lastRelease = now) ∧
    (∀ s now, s.phase ≠ Phase.green → (tick s now).served = s.served) ∧
    (relScn1.currentLane = some Dir.N ∧ relScn1.phase = Phase.green ∧
      relScn3.phase = Phase.green ∧ relScn3.waiting.get Dir.N = 1 ∧
      relScn4.waiting.get Dir.N = 0 ∧ relScn4.served = 3 ∧
      relScn4.phase = Phase.yellow) := by
  refine ⟨?_, ?_, ?_, tick_not_green_served, ?_⟩
  · intro s now
    rcases tick_served_cases s now with h | h <;> omega
  · intro s now l hr hph hl
    constructor
    · intro hs
      by_contra hrel
      have hskip := (tick_green_skip s now l hr hph hl hrel).1
      omega
    · rintro ⟨hw, ht⟩
      exact (tick_green_fire s now l hr hph hl hw ht).1
  · intro s now l hr hph hl hw ht
    exact ⟨(tick_green_fire s now l hr hph hl hw ht).2.1,
      (tick_green_fire s now l hr hph hl hw ht).2.2⟩
  · with_unfolding_all decide

/-- Witness for Claim C5: the second tick of the exhaustive-release scenario
performs a release. -/
theorem c5_release_process_witness :
    (tick relScn1 2).served = relScn1.served + 1 ∧ (tick relScn1 2).lastRelease = 2 := by
  constructor
  · exact (c5_release_process.2.1 relScn1 2 Dir.N (by with_unfolding_all decide)
      (by with_unfolding_all decide) (by with_unfolding_all decide)).mpr
      (by with_unfolding_all decide)
  · exact (c5_release_process.2.2.1 relScn1 2 Dir.N (by with_unfolding_all decide)
      (by with_unfolding_all decide) (by with_unfolding_all decide)
      (by with_unfolding_all decide) (by with_unfolding_all decide)).2

/-- Claim C6: the fixed-cycle selection is North when lastLane is unset and
otherwise `dir_order[(index(lastLane) + 1) % 4]`, ignoring queues; every
Idle tick in fixed-cycle mode installs that lane; and from a fresh start the
successive selections are N, E, S, W, N for every queue contents `q`. -/
theorem c6_fixed_cycle_round_robin :
    (nextLaneStd none = Dir.N) ∧
    (∀ l, nextLaneStd (some l) = dirOrder.getD ((dirIndex l + 1) % 4) Dir.N) ∧
    (∀ s now, s.running = true → s.phase = Phase.idle → s.mode = Mode.standard →
      (tick s now).currentLane = some (nextLaneStd s.lastLane) ∧
      (tick s now).lastLane = some (nextLaneStd s.lastLane)) ∧
    (∀ q : Quad,
      (rrScn1 q).currentLane = some Dir.N ∧
      (rrScn2 q).currentLane = some Dir.E ∧
      (rrScn3 q).currentLane = some Dir.S ∧
      (rrScn4 q).currentLane = some Dir.W ∧
      (rrScn5 q).currentLane = some Dir.N) := by
  refine ⟨rfl, fun l => rfl, ?_, ?_⟩
  · intro s now hr hph hm
    rw [tick_idle_standard s now hr hph hm]
    exact ⟨rfl, rfl⟩
  · intro q
    have h1 : CycleSt (rrScn1 q) Dir.N 100 := by
      show CycleSt (tick (rrScn0 q) 100) Dir.N 100
      rw [tick_idle_standard (rrScn0 q) 100 rfl rfl rfl]
      exact ⟨rfl, rfl, rfl, rfl, rfl, rfl, rfl, rfl, rfl⟩
    have h2 : CycleSt (rrScn2 q) (nextFixed Dir.N) 200 :=
      cycle_step (rrScn1 q) Dir.N 100 h1 200 (by norm_num) (by norm_num)
    have h3 : CycleSt (rrScn3 q) (nextFixed (nextFixed Dir.N)) 300 :=
      cycle_step (rrScn2 q) (nextFixed Dir.N) 200 h2 300 (by norm_num) (by norm_num)
    have h4 : CycleSt (rrScn4 q) (nextFixed (nextFixed (nextFixed Dir.N))) 400 :=
      cycle_step (rrScn3 q) (nextFixed (nextFixed Dir.N)) 300 h3 400 (by norm_num) (by norm_num)
    have h5 : CycleSt (rrScn5 q) (nextFixed (nextFixed (nextFixed (nextFixed Dir.N)))) 500 :=
      cycle_step (rrScn4 q) (nextFixed (nextFixed (nextFixed Dir.N))) 400 h4 500
        (by norm_num) (by norm_num)
    exact ⟨h1.2.2.2.1, h2.2.2.2.1, h3.2.2.2.1, h4.2.2.2.1, h5.2.2.2.1⟩

/-- Witness for Claim C6 at a concrete nonzero queue. -/
theorem c6_fixed_cycle_round_robin_witness :
    (tick (rrScn0 ⟨7, 1, 0, 5⟩) 100).currentLane =
      some (nextLaneStd (rrScn0 ⟨7, 1, 0, 5⟩).lastLane) ∧
    (tick (rrScn0 ⟨7, 1, 0, 5⟩) 100).lastLane =
      some (nextLaneStd (rrScn0 ⟨7, 1, 0, 5⟩).lastLane) :=
  c6_fixed_cycle_round_robin.2.2.1 (rrScn0 ⟨7, 1, 0, 5⟩) 100 rfl rfl rfl

/-- Claim C7 is false on the code: `start` does not reset the timers: after
`start` on a state with stale greenElapsed = 5, yellowElapsed = 7,
lastReleaseTime = 9, those values persist instead of being reset. -/
theorem c7_start_resets_timers_counterexample :
    (startAct staleTimers).greenElapsed = 5 ∧
    (startAct staleTimers).yellowElapsed = 7 ∧
    (startAct staleTimers).lastRelease = 9 ∧
    ¬ ((startAct staleTimers).greenElapsed = 0 ∧
        (startAct staleTimers).yellowElapsed = 0 ∧
        (startAct staleTimers).lastRelease = 0) := by
  with_unfolding_all decide

/-- Claim C7 (amended): `start` sets waiting ← counts, served ← 0,
vehicleMoving ← 0, phase ← Idle, currentLane ← None, lastLane ← None,
running ← true, and leaves every other field — in particular greenElapsed,
yellowElapsed and lastReleaseTime — unchanged (those timers are only reset
later, at the corresponding phase entries). -/
theorem c7_start_effect (s : St) :
    (startAct s).waiting = s.counts ∧
    (startAct s).served = 0 ∧
    (startAct s).vehicleMoving = 0 ∧
    (startAct s).phase = Phase.idle ∧
    (startAct s).currentLane = none ∧
    (startAct s).lastLane = none ∧
    (startAct s).running = true ∧
    (startAct s).counts = s.counts ∧
    (startAct s).mode = s.mode ∧
    (startAct s).greenTime = s.greenTime ∧
    (startAct s).yellowTime = s.yellowTime ∧
    (startAct s).releaseInterval = s.releaseInterval ∧
    (startAct s).greenElapsed = s.greenElapsed ∧
    (startAct s).yellowElapsed = s.yellowElapsed ∧
    (startAct s).lastRelease = s.lastRelease ∧
    (startAct s).lastTick = s.lastTick :=
  ⟨rfl, rfl, rfl, rfl, rfl, rfl, rfl, rfl, rfl, rfl, rfl, rfl, rfl, rfl, rfl, rfl⟩

/-- Claim C8: `reset` is idempotent — applying it twice equals applying it
once — and the reset state has all counts, waiting and served zero, phase
Idle, no current or last lane, and running false. -/
theorem c8_reset_idempotent (s : St) :
    resetAct (resetAct s) = resetAct s ∧
    (∀ d, (resetAct s).counts.get d = 0) ∧
    (∀ d, (resetAct s).waiting.get d = 0) ∧
    (resetAct s).served = 0 ∧
    (resetAct s).phase = Phase.idle ∧
    (resetAct s).currentLane = none ∧
    (resetAct s).lastLane = none ∧
    (resetAct s).running = false := by
  refine ⟨rfl, fun d => ?_, fun d => ?_, rfl, rfl, rfl, rfl, rfl⟩ <;> cases d <;> rfl

/-- Claim C9: while running is false, any sequence of tick calls leaves the
state — every field of it — unchanged. -/
theorem c9_paused_noop (s : St) (h : s.running = false) (nows : List Rat) :
    List.foldl tick s nows = s := by
  induction nows with
  | nil => rfl
  | cons n ns ih =>
    rw [List.foldl_cons, tick_not_running s n h]
    exact ih

/-- Witness for Claim C9 on the initial (stopped) state and three ticks. -/
theorem c9_paused_noop_witness : List.foldl tick initState [1, 2, 3] = initState :=
  c9_paused_noop initState rfl [1, 2, 3]

/-- Claim C10: if every waiting count is non-negative, it stays non-negative
after a tick — the only decrement is guarded by waiting > 0 — and therefore
after any sequence of ticks. -/
theorem c10_waiting_nonneg :
    (∀ s now, (∀ d, 0 ≤ s.waiting.get d) → ∀ d, 0 ≤ (tick s now).waiting.get d) ∧
    (∀ (s : St) (nows : List Rat), (∀ d, 0 ≤ s.waiting.get d) →
      ∀ d, 0 ≤ (List.foldl tick s nows).waiting.get d) := by
  constructor
  · exact tick_waiting_nonneg
  · intro s nows
    induction nows generalizing s with
    | nil => exact fun h d => h d
    | cons n ns ih =>
      intro h d
      rw [List.foldl_cons]
      exact ih (tick s n) (tick_waiting_nonneg s n h) d

/-- Witness for Claim C10 on the started five-vehicle state. -/
theorem c10_waiting_nonneg_witness : 0 ≤ (tick runningN5 1).waiting.get Dir.N :=
  c10_waiting_nonneg.1 runningN5 1
    (fun d => by cases d <;> with_unfolding_all decide) Dir.N

end Traffic
